import Mathlib

/-!
Shallow embedding of the Christmas-App service worker.

The repository contains two service-worker scripts: `app/static/sw.js`
(the current one) and an earlier, unnamed worker version. Both react to
browser lifecycle events (install, activate, fetch). This file models the
browser cache storage (`CacheStorage` / `Cache`), the network, and the
handlers, and proves the specified properties about them.
-/

/-- A request URL. -/
abbrev Url := String

/-- An HTTP response, abstracted to its payload. -/
abbrev Response := String

/-- A single cache generation: stored (request URL, response) pairs in
insertion order. -/
abbrev Cache := List (Url × Response)

/-- The browser cache storage: named cache generations in creation order. -/
abbrev CacheStore := List (String × Cache)

/-- The network: a request URL yields a response, or `none` on fetch failure. -/
abbrev Network := Url → Option Response

/-- The cache generation identifier of `app/static/sw.js` (`CACHE_NAME`). -/
def CACHE_NAME : String := "christmas-cache-v4"

/-- The fixed asset list of `app/static/sw.js` (`ASSETS`). -/
def ASSETS : List Url :=
  ["/", "/about", "/static/styles.css?v=3", "/manifest.webmanifest"]

/-- `caches.open(name)`: create-if-absent; a newly created generation is empty
and is appended in creation order. -/
def cachesOpen (store : CacheStore) (name : String) : CacheStore :=
  if store.any (fun g => g.1 == name) then store else store ++ [(name, [])]

/-- `caches.delete(name)`: remove every generation called `name`. -/
def cachesDelete (store : CacheStore) (name : String) : CacheStore :=
  store.filter (fun g => !(g.1 == name))

/-- Look up the cache generation called `name` in the storage. -/
def storeLookup (store : CacheStore) (name : String) : Option Cache :=
  (store.find? (fun g => g.1 == name)).map (fun g => g.2)

/-- Replace the content of the generation called `name` by applying `f` to it. -/
def storeUpdate (store : CacheStore) (name : String) (f : Cache → Cache) :
    CacheStore :=
  store.map (fun g => if g.1 == name then (g.1, f g.2) else g)

/-- `cache.put`: store a response under a URL, overwriting any entry already
stored for that URL. -/
def cachePut (c : Cache) (u : Url) (r : Response) : Cache :=
  c.filter (fun e => !(e.1 == u)) ++ [(u, r)]

/-- `cache.match`: the first stored response whose URL matches the request. -/
def cacheMatch (c : Cache) (u : Url) : Option Response :=
  (c.find? (fun e => e.1 == u)).map (fun e => e.2)

/-- `caches.match`: search every cache generation in creation order and return
the first match. -/
def cachesMatch : CacheStore → Url → Option Response
  | [], _ => none
  | g :: rest, u =>
    match cacheMatch g.2 u with
    | some r => some r
    | none => cachesMatch rest u

/-- The fetching phase of `cache.addAll`: fetch every URL of the list, failing
as a whole as soon as any single fetch fails. -/
def fetchAssets (net : Network) : List Url → Option (List (Url × Response))
  | [] => some []
  | u :: us =>
    match net u, fetchAssets net us with
    | some r, some rest => some ((u, r) :: rest)
    | _, _ => none

/-- The storing phase of `cache.addAll`: put every fetched pair into the cache
(all fetches succeeded, `addAll` is all-or-nothing). -/
def cacheAddAll (c : Cache) (entries : List (Url × Response)) : Cache :=
  entries.foldl (fun acc e => cachePut acc e.1 e.2) c

/-- Outcome of an install handler: whether the promise passed to
`event.waitUntil` resolved (`ok`), and the cache storage afterwards. -/
structure InstallResult where
  ok : Bool
  store : CacheStore
deriving DecidableEq

/-- The `install` handler of `app/static/sw.js`:
`event.waitUntil(caches.open(CACHE_NAME).then((cache) => cache.addAll(ASSETS)))`.
`caches.open` creates the generation; if any asset fetch fails, `addAll`
rejects and stores nothing. `self.skipWaiting()` only affects worker-lifecycle
timing and has no cache effect. -/
def installHandler (net : Network) (store : CacheStore) : InstallResult :=
  match fetchAssets net ASSETS with
  | some entries =>
    { ok := true,
      store := storeUpdate (cachesOpen store CACHE_NAME) CACHE_NAME
        (fun c => cacheAddAll c entries) }
  | none => { ok := false, store := cachesOpen store CACHE_NAME }

/-- The `activate` handler's effect on the cache storage: `caches.keys()`
enumerates the generation names of the pre-state, and
`Promise.all(keys.map((key) => (key === CACHE_NAME ? null : caches.delete(key))))`
deletes every non-current one. The deletions target distinct names and
commute, so they are sequentialised here by a fold. -/
def activateHandler (store : CacheStore) : CacheStore :=
  (store.map Prod.fst).foldl
    (fun s key => if key == CACHE_NAME then s else cachesDelete s key) store

/-- Observable actions issued by the activate handler. -/
inductive SWAction where
  | deleteCache : String → SWAction
  | claimClients : SWAction
deriving DecidableEq

/-- The actions of the activate handler in the order they are issued: the
synchronous handler body calls `event.waitUntil(...)`, which merely registers
the asynchronous deletion chain, and then calls `self.clients.claim()`
immediately; the registered chain (`caches.keys().then(...)`) issues its
deletions only afterwards, once the `caches.keys()` promise has resolved. -/
def activateTrace (store : CacheStore) : List SWAction :=
  SWAction.claimClients ::
    (store.map Prod.fst).filterMap
      (fun key =>
        if key == CACHE_NAME then none else some (SWAction.deleteCache key))

/-- `true` when no delete action is issued after a claim-clients action,
i.e. when claiming clients never precedes a cache deletion. -/
def noDeleteAfterClaim : List SWAction → Bool
  | [] => true
  | SWAction.claimClients :: rest =>
    rest.all (fun a =>
      match a with
      | SWAction.deleteCache _ => false
      | SWAction.claimClients => true) && noDeleteAfterClaim rest
  | SWAction.deleteCache _ :: rest => noDeleteAfterClaim rest

/-- `true` when every action of the list deletes a non-current generation. -/
def deletesOnlyStale : List SWAction → Bool
  | [] => true
  | SWAction.deleteCache k :: rest => !(k == CACHE_NAME) && deletesOnlyStale rest
  | SWAction.claimClients :: _ => false

/-- Outcome of a fetch handler: the response handed to the page (`none` for a
propagated network failure), the number of network fetches performed, and the
cache storage afterwards. -/
structure FetchResult where
  response : Option Response
  networkCalls : Nat
  store : CacheStore
deriving DecidableEq

/-- The `fetch` handler of `app/static/sw.js`:
`event.respondWith(caches.match(event.request).then((cached) => cached || fetch(event.request)))`. -/
def fetchHandler (net : Network) (store : CacheStore) (req : Url) : FetchResult :=
  match cachesMatch store req with
  | some r => { response := some r, networkCalls := 0, store := store }
  | none => { response := net req, networkCalls := 1, store := store }

/-- Boolean membership in a list of names. -/
def memB (x : String) : List String → Bool
  | [] => false
  | k :: ks => x == k || memB x ks

/-- Whether the generation called `name` holds an entry matching URL `u`. -/
def storeHasEntry (store : CacheStore) (name : String) (u : Url) : Bool :=
  match storeLookup store name with
  | some c => (cacheMatch c u).isSome
  | none => false

namespace V1

/-- The cache generation identifier of the earlier worker version. -/
def CACHE_NAME : String := "christmas-cache-v1"

/-- The asset list of the earlier worker version. -/
def ASSETS : List Url := ["/", "/static/styles.css", "/manifest.webmanifest"]

/-- The `install` handler of the earlier worker version:
`e.waitUntil(caches.open("christmas-cache-v1").then((cache) => cache.addAll([...])))`. -/
def installHandler (net : Network) (store : CacheStore) : InstallResult :=
  match fetchAssets net ASSETS with
  | some entries =>
    { ok := true,
      store := storeUpdate (cachesOpen store CACHE_NAME) CACHE_NAME
        (fun c => cacheAddAll c entries) }
  | none => { ok := false, store := cachesOpen store CACHE_NAME }

/-- The `fetch` handler of the earlier worker version:
`e.respondWith(caches.match(e.request).then((resp) => resp || fetch(e.request)))`. -/
def fetchHandler (net : Network) (store : CacheStore) (req : Url) : FetchResult :=
  match cachesMatch store req with
  | some r => { response := some r, networkCalls := 0, store := store }
  | none => { response := net req, networkCalls := 1, store := store }

end V1

/-! ### Helper lemmas about the cache storage primitives -/

theorem storeLookup_nil (n : String) : storeLookup [] n = none := rfl

theorem storeLookup_cons (g : String × Cache) (s : CacheStore) (n : String) :
    storeLookup (g :: s) n =
      if g.1 == n then some g.2 else storeLookup s n := by
  by_cases h : g.1 == n <;> simp [storeLookup, List.find?_cons, h]

theorem storeLookup_append (s t : CacheStore) (n : String) :
    storeLookup (s ++ t) n =
      match storeLookup s n with
      | some c => some c
      | none => storeLookup t n := by
  induction s with
  | nil => simp [storeLookup_nil]
  | cons g s ih =>
    by_cases h : g.1 == n <;>
      simp [storeLookup_cons, h, ih]

theorem any_eq_lookup_isSome (s : CacheStore) (n : String) :
    s.any (fun g => g.1 == n) = (storeLookup s n).isSome := by
  induction s with
  | nil => simp [storeLookup_nil]
  | cons g s ih =>
    by_cases h : g.1 == n <;> simp [storeLookup_cons, h, ih]

theorem storeLookup_cachesOpen_ne (s : CacheStore) (n g : String)
    (h : g ≠ n) : storeLookup (cachesOpen s n) g = storeLookup s g := by
  unfold cachesOpen
  split
  · rfl
  · rw [storeLookup_append]
    have hg : (n == g) = false := by
      simp [BEq.beq]
      exact fun hn => h hn.symm
    simp [storeLookup_cons, hg, storeLookup_nil]
    cases storeLookup s g <;> rfl

theorem storeLookup_cachesOpen_self_of_none (s : CacheStore) (n : String)
    (h : storeLookup s n = none) :
    storeLookup (cachesOpen s n) n = some [] := by
  unfold cachesOpen
  rw [any_eq_lookup_isSome, h]
  simp [storeLookup_append, h, storeLookup_cons, storeLookup_nil]

theorem storeLookup_cachesOpen_isSome (s : CacheStore) (n : String) :
    (storeLookup (cachesOpen s n) n).isSome = true := by
  unfold cachesOpen
  rw [any_eq_lookup_isSome]
  cases h : storeLookup s n with
  | some c => simp [h]
  | none =>
    simp [h, storeLookup_append, storeLookup_cons, storeLookup_nil]

theorem storeUpdate_cons (e : String × Cache) (s : CacheStore) (n : String)
    (f : Cache → Cache) :
    storeUpdate (e :: s) n f =
      (if e.1 == n then (e.1, f e.2) else e) :: storeUpdate s n f := rfl

theorem storeLookup_storeUpdate_ne (s : CacheStore) (n g : String)
    (f : Cache → Cache) (h : g ≠ n) :
    storeLookup (storeUpdate s n f) g = storeLookup s g := by
  induction s with
  | nil => rfl
  | cons e s ih =>
    rw [storeUpdate_cons]
    by_cases hn : e.1 = n
    · simp [storeLookup_cons, hn, Ne.symm h, ih]
    · by_cases hg : e.1 = g <;> simp [storeLookup_cons, hn, hg, h, ih]

theorem storeLookup_storeUpdate_self (s : CacheStore) (n : String)
    (f : Cache → Cache) (c : Cache) (h : storeLookup s n = some c) :
    storeLookup (storeUpdate s n f) n = some (f c) := by
  induction s with
  | nil => simp [storeLookup_nil] at h
  | cons e s ih =>
    rw [storeUpdate_cons]
    by_cases hn : e.1 = n
    · rw [storeLookup_cons] at h
      simp [hn] at h
      simp [storeLookup_cons, hn, h]
    · rw [storeLookup_cons] at h
      simp [hn] at h
      simp [storeLookup_cons, hn]
      exact ih h

/-! ### Helper lemmas about asset fetching and cache entries -/

theorem fetchAssets_map_fst (net : Network) :
    ∀ (us : List Url) (es : List (Url × Response)),
      fetchAssets net us = some es → es.map Prod.fst = us := by
  intro us
  induction us with
  | nil =>
    intro es h
    simp [fetchAssets] at h
    simp [← h]
  | cons u us ih =>
    intro es h
    unfold fetchAssets at h
    cases hu : net u with
    | none => rw [hu] at h; simp at h
    | some r =>
      rw [hu] at h
      cases hr : fetchAssets net us with
      | none => rw [hr] at h; simp at h
      | some rest =>
        rw [hr] at h
        simp at h
        simp [← h, ih rest hr]

theorem fetchAssets_fail (net : Network) :
    ∀ (us : List Url) (u : Url), u ∈ us → net u = none →
      fetchAssets net us = none := by
  intro us
  induction us with
  | nil => intro u h; simp at h
  | cons v us ih =>
    intro u h hfail
    unfold fetchAssets
    rcases List.mem_cons.mp h with h1 | h1
    · rw [← h1, hfail]
    · rw [ih u h1 hfail]
      cases net v <;> rfl

theorem cacheMatch_isSome_of_mem (c : Cache) (u : Url)
    (h : u ∈ c.map Prod.fst) : (cacheMatch c u).isSome = true := by
  induction c with
  | nil => simp at h
  | cons e c ih =>
    by_cases he : e.1 = u
    · simp [cacheMatch, List.find?_cons, he]
    · simp [he] at h
      rcases h with h1 | h1
      · exact absurd h1.symm he
      · have := ih (by simpa using h1)
        simp [cacheMatch, List.find?_cons, he] at this ⊢
        simpa [cacheMatch] using this

theorem mem_map_fst_cachePut_self (c : Cache) (u : Url) (r : Response) :
    u ∈ (cachePut c u r).map Prod.fst := by
  simp [cachePut]

theorem mem_map_fst_cachePut_of_mem (c : Cache) (u v : Url) (r : Response)
    (h : u ∈ c.map Prod.fst) : u ∈ (cachePut c v r).map Prod.fst := by
  by_cases huv : u = v
  · rw [huv]; exact mem_map_fst_cachePut_self c v r
  · rcases List.mem_map.mp h with ⟨e, he, hfe⟩
    refine List.mem_map.mpr ⟨e, ?_, hfe⟩
    refine List.mem_append_left _ (List.mem_filter.mpr ⟨he, ?_⟩)
    simp [hfe, huv]

theorem mem_map_fst_cacheAddAll :
    ∀ (es : List (Url × Response)) (c : Cache) (u : Url),
      u ∈ es.map Prod.fst ∨ u ∈ c.map Prod.fst →
        u ∈ (cacheAddAll c es).map Prod.fst := by
  intro es
  induction es with
  | nil =>
    intro c u h
    rcases h with h | h
    · simp at h
    · simpa [cacheAddAll] using h
  | cons e es ih =>
    intro c u h
    show u ∈ (cacheAddAll (cachePut c e.1 e.2) es).map Prod.fst
    rcases h with h | h
    · simp [List.mem_cons] at h
      rcases h with h1 | h1
      · exact ih _ u (Or.inr (h1 ▸ mem_map_fst_cachePut_self c e.1 e.2))
      · exact ih _ u (Or.inl (by simpa using h1))
    · exact ih _ u (Or.inr (mem_map_fst_cachePut_of_mem c u e.1 e.2 h))

/-! ### Helper lemmas about the activate handler -/

theorem memB_eq_true_of_mem (x : String) :
    ∀ K : List String, x ∈ K → memB x K = true := by
  intro K
  induction K with
  | nil => intro h; simp at h
  | cons k K ih =>
    intro h
    rcases List.mem_cons.mp h with h1 | h1
    · simp [memB, h1]
    · simp [memB, ih h1]

theorem foldl_delete_eq_filter :
    ∀ (K : List String) (s : CacheStore),
      K.foldl (fun s key => if key == CACHE_NAME then s else cachesDelete s key) s
        = s.filter (fun g => g.1 == CACHE_NAME || !(memB g.1 K)) := by
  intro K
  induction K with
  | nil =>
    intro s
    simp [memB]
  | cons k K ih =>
    intro s
    rw [List.foldl_cons]
    by_cases hk : k = CACHE_NAME
    · simp only [hk, beq_self_eq_true, if_true]
      rw [ih]
      apply List.filter_congr
      intro g hg
      by_cases hgc : g.1 = CACHE_NAME
      · have hA : (g.1 == CACHE_NAME) = true := by simp [hgc]
        simp [memB, hA]
      · have hA : (g.1 == CACHE_NAME) = false := by simp [hgc]
        simp [memB, hA]
    · have hkf : (k == CACHE_NAME) = false := by simp [hk]
      rw [hkf]
      simp only [Bool.false_eq_true, if_false]
      rw [ih]
      unfold cachesDelete
      rw [List.filter_filter]
      apply List.filter_congr
      intro g hg
      by_cases hgc : g.1 = CACHE_NAME
      · have hA : (g.1 == CACHE_NAME) = true := by simp [hgc]
        have hB : (g.1 == k) = false := by
          simp [hgc]
          exact Ne.symm hk
        simp [memB, hA, hB]
      · by_cases hgk : g.1 = k
        · have hA : (g.1 == CACHE_NAME) = false := by simp [hgc]
          have hB : (g.1 == k) = true := by simp [hgk]
          simp [memB, hA, hB]
        · have hA : (g.1 == CACHE_NAME) = false := by simp [hgc]
          have hB : (g.1 == k) = false := by simp [hgk]
          simp [memB, hA, hB]

theorem activateHandler_eq_filter (store : CacheStore) :
    activateHandler store = store.filter (fun g => g.1 == CACHE_NAME) := by
  unfold activateHandler
  rw [foldl_delete_eq_filter]
  apply List.filter_congr
  intro g hg
  have hm : memB g.1 (store.map Prod.fst) = true :=
    memB_eq_true_of_mem g.1 (store.map Prod.fst) (List.mem_map.mpr ⟨g, hg, rfl⟩)
  simp [hm]

theorem deletesOnlyStale_filterMap (K : List String) :
    deletesOnlyStale (K.filterMap (fun key =>
      if key == CACHE_NAME then none else some (SWAction.deleteCache key))) = true := by
  induction K with
  | nil => rfl
  | cons k K ih =>
    by_cases hk : k = CACHE_NAME
    · simpa [List.filterMap_cons, hk] using ih
    · simp [List.filterMap_cons, hk, deletesOnlyStale]
      simpa using ih

/-! ### Claim theorems about the fetch handler -/

/-- C5: For every intercepted request whose URL matches an entry stored in the
cache, the fetch handler responds with that cached response and performs no
network fetch (the network-call counter stays zero, and the storage is
untouched). -/
theorem fetch_hit_served_from_cache (net : Network) (store : CacheStore)
    (req : Url) (r : Response) (h : cachesMatch store req = some r) :
    fetchHandler net store req =
      { response := some r, networkCalls := 0, store := store } := by
  unfold fetchHandler
  rw [h]

/-- Witness for C5: the pre-cached home page is served from the cache with zero
network calls, even though the network would fail. -/
theorem fetch_hit_served_from_cache_witness :
    cachesMatch [(CACHE_NAME, [("/", "home")])] "/" = some "home" ∧
    fetchHandler (fun _ => none) [(CACHE_NAME, [("/", "home")])] "/" =
      { response := some "home", networkCalls := 0,
        store := [(CACHE_NAME, [("/", "home")])] } :=
  ⟨rfl, fetch_hit_served_from_cache (fun _ => none) _ "/" "home" rfl⟩

/-- C6: For every intercepted request whose URL matches no entry in the cache
store, the fetch handler performs exactly one network fetch and responds with
that fetch's result verbatim. -/
theorem fetch_miss_served_from_network (net : Network) (store : CacheStore)
    (req : Url) (h : cachesMatch store req = none) :
    fetchHandler net store req =
      { response := net req, networkCalls := 1, store := store } := by
  unfold fetchHandler
  rw [h]

/-- Witness for C6: an uncached URL is answered by exactly one network fetch,
returned verbatim. -/
theorem fetch_miss_served_from_network_witness :
    cachesMatch [(CACHE_NAME, [("/", "home")])] "/unknown" = none ∧
    fetchHandler (fun _ => some "net") [(CACHE_NAME, [("/", "home")])] "/unknown" =
      { response := some "net", networkCalls := 1,
        store := [(CACHE_NAME, [("/", "home")])] } :=
  ⟨rfl, fetch_miss_served_from_network (fun _ => some "net") _ "/unknown" rfl⟩

/-- C7: The fetch handler never mutates the cache store, on hits and misses
alike, whether or not the network fetch succeeds (read-through only). -/
theorem fetch_preserves_store (net : Network) (store : CacheStore) (req : Url) :
    (fetchHandler net store req).store = store := by
  unfold fetchHandler
  cases cachesMatch store req <;> rfl

/-- C8: If the network fetch performed on a cache miss fails, that failure is
propagated as the response; the network is tried exactly once and the cache
store is unchanged. -/
theorem fetch_miss_failure_propagates (net : Network) (store : CacheStore)
    (req : Url) (hmiss : cachesMatch store req = none) (hfail : net req = none) :
    (fetchHandler net store req).response = none ∧
    (fetchHandler net store req).networkCalls = 1 ∧
    (fetchHandler net store req).store = store := by
  unfold fetchHandler
  rw [hmiss]
  exact ⟨hfail, rfl, rfl⟩

/-- Witness for C8: an uncached URL on a dead network yields a propagated
failure, one network attempt, and an unchanged store. -/
theorem fetch_miss_failure_propagates_witness :
    cachesMatch [(CACHE_NAME, [("/", "home")])] "/offline" = none ∧
    (fetchHandler (fun _ => none) [(CACHE_NAME, [("/", "home")])]
        "/offline").response = none ∧
    (fetchHandler (fun _ => none) [(CACHE_NAME, [("/", "home")])]
        "/offline").networkCalls = 1 ∧
    (fetchHandler (fun _ => none) [(CACHE_NAME, [("/", "home")])]
        "/offline").store = [(CACHE_NAME, [("/", "home")])] := by
  refine ⟨rfl, ?_⟩
  exact fetch_miss_failure_propagates (fun _ => none) _ "/offline" rfl rfl

/-- C10: The fetch handlers of the two worker versions are extensionally
equal: for every network, cache store state and intercepted request they
produce the same result. -/
theorem fetch_handlers_equal (net : Network) (store : CacheStore) (req : Url) :
    fetchHandler net store req = V1.fetchHandler net store req := rfl

/-! ### Claim theorems about the install handler -/

/-- C2: For every URL in the fixed asset list `ASSETS`, after the install
handler completes successfully, the cache store under the current generation
identifier contains an entry matching that URL. -/
theorem install_caches_every_asset (net : Network) (store : CacheStore)
    (u : Url) (hu : u ∈ ASSETS)
    (hok : (installHandler net store).ok = true) :
    storeHasEntry (installHandler net store).store CACHE_NAME u = true := by
  unfold installHandler at hok ⊢
  cases hfa : fetchAssets net ASSETS with
  | none => rw [hfa] at hok; simp at hok
  | some es =>
    obtain ⟨c0, hc0⟩ : ∃ c, storeLookup (cachesOpen store CACHE_NAME) CACHE_NAME = some c :=
      Option.isSome_iff_exists.mp (storeLookup_cachesOpen_isSome store CACHE_NAME)
    have hupd := storeLookup_storeUpdate_self (cachesOpen store CACHE_NAME)
      CACHE_NAME (fun c => cacheAddAll c es) c0 hc0
    show storeHasEntry (storeUpdate (cachesOpen store CACHE_NAME) CACHE_NAME
      (fun c => cacheAddAll c es)) CACHE_NAME u = true
    unfold storeHasEntry
    rw [hupd]
    apply cacheMatch_isSome_of_mem
    apply mem_map_fst_cacheAddAll
    left
    rw [fetchAssets_map_fst net ASSETS es hfa]
    exact hu

/-- Witness for C2: on an everywhere-successful network and an empty store,
install succeeds and the home page is cached under the current generation. -/
theorem install_caches_every_asset_witness :
    "/" ∈ ASSETS ∧
    (installHandler (fun _ => some "ok") []).ok = true ∧
    storeHasEntry (installHandler (fun _ => some "ok") []).store
      CACHE_NAME "/" = true := by
  refine ⟨by decide, by rfl, ?_⟩
  exact install_caches_every_asset (fun _ => some "ok") [] "/" (by decide) (by rfl)

/-- C3: If the fetch of any single URL in the asset list fails during install,
the installation rejects, the new generation holds no entries, and every
pre-existing generation is unchanged. -/
theorem install_failure_all_or_nothing (net : Network) (store : CacheStore)
    (u : Url) (g : String) (hu : u ∈ ASSETS) (hfail : net u = none)
    (hnew : storeLookup store CACHE_NAME = none) (hg : g ≠ CACHE_NAME) :
    (installHandler net store).ok = false ∧
    storeLookup (installHandler net store).store CACHE_NAME = some [] ∧
    storeLookup (installHandler net store).store g = storeLookup store g := by
  have hfa : fetchAssets net ASSETS = none := fetchAssets_fail net ASSETS u hu hfail
  unfold installHandler
  rw [hfa]
  exact ⟨rfl, storeLookup_cachesOpen_self_of_none store CACHE_NAME hnew,
    storeLookup_cachesOpen_ne store CACHE_NAME g hg⟩

/-- Witness for C3: the network fails on `/about`; install rejects, the new
generation stays empty and the old generation keeps its content. -/
theorem install_failure_all_or_nothing_witness :
    (installHandler (fun v => if v == "/about" then none else some "ok")
        [("christmas-cache-v3", [("/", "old")])]).ok = false ∧
    storeLookup (installHandler (fun v => if v == "/about" then none else some "ok")
        [("christmas-cache-v3", [("/", "old")])]).store CACHE_NAME = some [] ∧
    storeLookup (installHandler (fun v => if v == "/about" then none else some "ok")
        [("christmas-cache-v3", [("/", "old")])]).store "christmas-cache-v3" =
      storeLookup [("christmas-cache-v3", [("/", "old")])] "christmas-cache-v3" :=
  install_failure_all_or_nothing
    (fun v => if v == "/about" then none else some "ok")
    [("christmas-cache-v3", [("/", "old")])] "/about" "christmas-cache-v3"
    (by decide) (by rfl) (by rfl) (by decide)

/-- C9: The install handlers touch only the cache under their own generation
identifier: for every pre-existing state, every generation named differently
is unchanged after install, whether it succeeds or fails; this holds for both
worker versions. Stale generations are removed only by the activate handler. -/
theorem install_touches_only_current (net : Network) (store : CacheStore)
    (g : String) :
    (g ≠ CACHE_NAME →
      storeLookup (installHandler net store).store g = storeLookup store g) ∧
    (g ≠ V1.CACHE_NAME →
      storeLookup (V1.installHandler net store).store g = storeLookup store g) := by
  constructor
  · intro h4
    unfold installHandler
    cases hfa : fetchAssets net ASSETS with
    | none => exact storeLookup_cachesOpen_ne store CACHE_NAME g h4
    | some es =>
      show storeLookup (storeUpdate (cachesOpen store CACHE_NAME) CACHE_NAME
        (fun c => cacheAddAll c es)) g = storeLookup store g
      rw [storeLookup_storeUpdate_ne _ _ _ _ h4]
      exact storeLookup_cachesOpen_ne store CACHE_NAME g h4
  · intro h1
    unfold V1.installHandler
    cases hfa : fetchAssets net V1.ASSETS with
    | none => exact storeLookup_cachesOpen_ne store V1.CACHE_NAME g h1
    | some es =>
      show storeLookup (storeUpdate (cachesOpen store V1.CACHE_NAME) V1.CACHE_NAME
        (fun c => cacheAddAll c es)) g = storeLookup store g
      rw [storeLookup_storeUpdate_ne _ _ _ _ h1]
      exact storeLookup_cachesOpen_ne store V1.CACHE_NAME g h1

/-- Witness for C9: the stale generation of the other worker version keeps
its content across a successful install — the sw.js install leaves
`"christmas-cache-v1"` untouched, and the earlier install leaves
`"christmas-cache-v4"` untouched. -/
theorem install_touches_only_current_witness :
    storeLookup (installHandler (fun _ => some "ok")
        [("christmas-cache-v1", [("/", "old")])]).store "christmas-cache-v1" =
      storeLookup [("christmas-cache-v1", [("/", "old")])] "christmas-cache-v1" ∧
    storeLookup (V1.installHandler (fun _ => some "ok")
        [("christmas-cache-v4", [("/", "old")])]).store "christmas-cache-v4" =
      storeLookup [("christmas-cache-v4", [("/", "old")])] "christmas-cache-v4" :=
  ⟨(install_touches_only_current (fun _ => some "ok")
      [("christmas-cache-v1", [("/", "old")])] "christmas-cache-v1").1 (by decide),
    (install_touches_only_current (fun _ => some "ok")
      [("christmas-cache-v4", [("/", "old")])] "christmas-cache-v4").2 (by decide)⟩

/-! ### Claim theorems about the activate handler -/

/-- C1: After the activate handler completes, the set of cache generation
names equals exactly the singleton of the current generation identifier:
given that the current generation was present before activation, a name is
present afterwards iff it is `CACHE_NAME`; in particular every differing
generation is absent and the current one remains. -/
theorem activate_leaves_only_current (store : CacheStore) (n : String)
    (hcur : CACHE_NAME ∈ store.map Prod.fst) :
    (n ∈ (activateHandler store).map Prod.fst ↔ n = CACHE_NAME) := by
  rw [activateHandler_eq_filter]
  constructor
  · intro h
    rcases List.mem_map.mp h with ⟨g, hg, hfg⟩
    have hb := (List.mem_filter.mp hg).2
    rw [← hfg]
    simpa using hb
  · intro h
    rcases List.mem_map.mp hcur with ⟨g, hg, hfg⟩
    apply List.mem_map.mpr
    refine ⟨g, List.mem_filter.mpr ⟨hg, ?_⟩, by rw [hfg, h]⟩
    simp [hfg]

/-- Witness for C1: activating over a store holding a stale generation and the
current one; the stale name is no longer present afterwards. -/
theorem activate_leaves_only_current_witness :
    CACHE_NAME ∈ (([("christmas-cache-v3", []), (CACHE_NAME, [])] :
        CacheStore).map Prod.fst) ∧
    ("christmas-cache-v3" ∈
        (activateHandler [("christmas-cache-v3", []), (CACHE_NAME, [])]).map
          Prod.fst ↔
      "christmas-cache-v3" = CACHE_NAME) :=
  ⟨by decide,
    activate_leaves_only_current [("christmas-cache-v3", []), (CACHE_NAME, [])]
      "christmas-cache-v3" (by decide)⟩

/-- C4 as stated fails on the code: with a stale generation present, the
activate handler issues `self.clients.claim()` synchronously, before the
asynchronous deletions registered via `event.waitUntil` run, so a deletion is
issued after the claim-clients step in the handler's trace. -/
theorem activate_claim_before_deletion_counterexample :
    noDeleteAfterClaim
      (activateTrace [("christmas-cache-v3", []), (CACHE_NAME, [])]) = false := by
  decide

/-- C4 (amended): in every execution of the activate handler the claim-clients
step comes first, and every action issued after it deletes only non-current
cache generations; the deletions are awaited through `event.waitUntil`, but
claiming clients is not sequenced after their completion. -/
theorem activate_claim_precedes_deletions (store : CacheStore) :
    (activateTrace store).head? = some SWAction.claimClients ∧
    deletesOnlyStale (activateTrace store).tail = true :=
  ⟨rfl, deletesOnlyStale_filterMap (store.map Prod.fst)⟩
